import Mathlib

/-!
# Verification of the GitHub CODEOWNERS analyzer (`githubparser.py`)

A shallow embedding of the core logic of `GitHubCodeOwnersAnalyzer`:

* the rate-limit guard (`check_rate_limit`),
* repository discovery with pagination and filtering (`get_repositories`),
* the CODEOWNERS locator (`get_codeowners_content`),
* the primary-owner parser (`parse_primary_codeowner`),
* the per-repository record assembler inside `analyze_repositories`.

HTTP responses are modelled as explicit response values supplied by a
function parameter (page number ↦ response, path ↦ response); base64
decoding is abstracted as a function parameter `decode`.  Python string
operations (`strip`, `split`, `split("\n")`, `startswith`, slicing) are
modelled character-list by character-list with Python's semantics.  The
unbounded `while True` pagination loop is modelled with explicit fuel;
the loop bodies that issue HTTP requests are instrumented with the
sequence of requests (page fetches, rate-limit checks) they perform.
-/

namespace GhAnalytics

/-! ## Python string primitives -/

/-- The whitespace characters stripped by Python `str.strip()` /
split on by `str.split()` (ASCII whitespace). -/
def pyIsSpace (c : Char) : Bool :=
  c = ' ' || c = '\t' || c = '\n' || c = '\r' || c = '\x0b' || c = '\x0c'

/-- Python `str.strip()` on a character list: drop whitespace from both ends. -/
def pyStripChars (l : List Char) : List Char :=
  ((l.dropWhile pyIsSpace).reverse.dropWhile pyIsSpace).reverse

/-- Python `s.strip()`. -/
def pyStrip (s : String) : String :=
  ⟨pyStripChars s.data⟩

/-- Helper for `pySplitNl`: split at every newline, keeping empty pieces
(Python `s.split("\n")` semantics). -/
def pySplitNlAux : List Char → List Char → List String
  | [], acc => [⟨acc.reverse⟩]
  | c :: cs, acc =>
    if c = '\n' then ⟨acc.reverse⟩ :: pySplitNlAux cs []
    else pySplitNlAux cs (c :: acc)

/-- Python `s.split("\n")`. -/
def pySplitNl (s : String) : List String :=
  pySplitNlAux s.data []

/-- Helper for `pySplitWs`: maximal runs of non-whitespace characters
(Python `s.split()` with no argument: runs of whitespace separate tokens,
no empty tokens are produced). -/
def pySplitWsAux : List Char → List Char → List String
  | [], acc => if acc.isEmpty then [] else [⟨acc.reverse⟩]
  | c :: cs, acc =>
    if pyIsSpace c then
      if acc.isEmpty then pySplitWsAux cs []
      else ⟨acc.reverse⟩ :: pySplitWsAux cs []
    else pySplitWsAux cs (c :: acc)

/-- Python `s.split()` (split on whitespace runs, discarding empties). -/
def pySplitWs (s : String) : List String :=
  pySplitWsAux s.data []

/-- Python `s.startswith(c)` for a one-character prefix. -/
def pyStartsWith (s : String) (c : Char) : Bool :=
  match s.data with
  | [] => false
  | d :: _ => d = c

/-- Python `s[1:]`. -/
def pyTail (s : String) : String :=
  ⟨s.data.tail⟩

/-- Python `x or d` for an optional string `x`: `None` and `""` are falsy
and give the default. -/
def pyOrDefault (x : Option String) (d : String) : String :=
  match x with
  | some s => if s = "" then d else s
  | none => d

/-! ## Primary-owner parser (`parse_primary_codeowner`, lines 167–210)

The loop body of the source, one case per equation:

* skip a line that strips to empty or whose stripped form starts with `#`;
* a stripped line with exactly one whitespace token starting with `@`
  returns `line[1:]`;
* a line with two or more tokens returns the second token, with a leading
  `@` stripped if present;
* a single token not starting with `@` (or no token) falls through to the
  next line.
-/

/-- The skip condition of the loop (line 190): the line strips to empty, or
its stripped form starts with `#`. -/
def lineSkipped (line : String) : Prop :=
  pyStrip line = "" ∨ pyStartsWith (pyStrip line) '#' = true

instance (line : String) : Decidable (lineSkipped line) := by
  unfold lineSkipped; infer_instance

/-- The per-line loop of `parse_primary_codeowner` over the already split
list of lines. -/
def parseLines : List String → Option String
  | [] => none
  | line :: rest =>
    if lineSkipped line then
      parseLines rest
    else
      match pySplitWs (pyStrip line) with
      | [_] =>
        if pyStartsWith (pyStrip line) '@' then some (pyTail (pyStrip line))
        else parseLines rest
      | _ :: owner :: _ =>
        some (if pyStartsWith owner '@' then pyTail owner else owner)
      | [] => parseLines rest

/-- `parse_primary_codeowner` (lines 167–210): `None` on falsy (empty)
content, otherwise scan `content.strip().split("\n")`. -/
def parse_primary_codeowner (content : String) : Option String :=
  if content = "" then none
  else parseLines (pySplitNl (pyStrip content))

/-- The decision the loop reaches on a single line, `none` when the line is
skipped or falls through (single token without `@`, or no token). -/
def lineDecision (line : String) : Option String :=
  if lineSkipped line then none
  else
    match pySplitWs (pyStrip line) with
    | [_] =>
      if pyStartsWith (pyStrip line) '@' then some (pyTail (pyStrip line))
      else none
    | _ :: owner :: _ =>
      some (if pyStartsWith owner '@' then pyTail owner else owner)
    | [] => none

/-! ## CODEOWNERS locator (`get_codeowners_content`, lines 129–165) -/

/-- The response of `GET /repos/{org}/{repo}/contents/{path}`: an HTTP
status and the JSON `content` field (`none` when the field is absent). -/
structure ContentResponse where
  status : Nat
  content : Option String
deriving DecidableEq

/-- The fixed candidate paths, in the source's priority order (lines 146–150). -/
def codeownersLocations : List String :=
  [".github/CODEOWNERS", "CODEOWNERS", "docs/CODEOWNERS"]

/-- The condition under which a probe of one candidate makes the locator
return (line 158 and the truthiness test of line 160): status 200 and a
non-empty `content` field. -/
def probeOk (r : ContentResponse) : Bool :=
  r.status == 200 &&
    (match r.content with
     | some c => c != ""
     | none => false)

/-- The locator loop (lines 154–165), instrumented with the list of
candidate paths actually probed (each loop iteration issues exactly one
HTTP request, for the path at the head).  `fetch` models the HTTP GET per
path, `decode` models base64-decoding plus UTF-8 decoding of the `content`
payload.  The first component is the returned pair
`(content or None, location or None)`. -/
def locateRun (fetch : String → ContentResponse) (decode : String → String) :
    List String → (Option String × Option String) × List String
  | [] => ((none, none), [])
  | loc :: rest =>
    if (fetch loc).status = 200 then
      match (fetch loc).content with
      | some c =>
        if c = "" then
          ((locateRun fetch decode rest).1, loc :: (locateRun fetch decode rest).2)
        else
          ((some (decode c), some loc), [loc])
      | none =>
        ((locateRun fetch decode rest).1, loc :: (locateRun fetch decode rest).2)
    else
      ((locateRun fetch decode rest).1, loc :: (locateRun fetch decode rest).2)

/-- `get_codeowners_content`: the pair returned by the locator. -/
def get_codeowners_content (fetch : String → ContentResponse)
    (decode : String → String) : Option String × Option String :=
  (locateRun fetch decode codeownersLocations).1

/-- The sequence of candidate paths the locator actually probes. -/
def codeownersProbes (fetch : String → ContentResponse)
    (decode : String → String) : List String :=
  (locateRun fetch decode codeownersLocations).2

/-! ## Repository discovery (`get_repositories`, lines 69–127) -/

/-- A repository listing entry, restricted to the fields the script reads:
`name`, `html_url`, and the `private` / `archived` flags
(`repo.get("private", False)`, `repo.get("archived", False)`). -/
structure Repo where
  name : String
  html_url : String
  «private» : Bool
  archived : Bool
deriving DecidableEq

/-- The per-page filtering loop (lines 106–116): skip an entry when it is
archived and archived entries are excluded, when it is private and private
entries are excluded, or when it is public and public entries are
excluded; keep it otherwise, preserving order. -/
def filterRepos (include_public include_private include_archived : Bool) :
    List Repo → List Repo
  | [] => []
  | repo :: rest =>
    if repo.archived && !include_archived then
      filterRepos include_public include_private include_archived rest
    else if repo.«private» && !include_private then
      filterRepos include_public include_private include_archived rest
    else if !repo.«private» && !include_public then
      filterRepos include_public include_private include_archived rest
    else
      repo :: filterRepos include_public include_private include_archived rest

/-- The response of one page of `GET /orgs/{org}/repos`: an HTTP status and
the JSON array of listing entries. -/
structure PageResponse where
  status : Nat
  data : List Repo
deriving DecidableEq

/-- One HTTP interaction of the discovery loop: a call to
`check_rate_limit` or the fetch of one listing page. -/
inductive DiscoveryEvent
  | rateLimitCheck
  | pageFetch (page : Nat)
deriving DecidableEq

/-- `per_page = 100  # Maximum allowed by GitHub API` (line 83). -/
def per_page : Nat := 100

/-- The `while True` pagination loop of `get_repositories` (lines 87–124),
with explicit fuel (the Python loop is unbounded), instrumented with the
sequence of interactions it performs.  Each iteration calls
`check_rate_limit`, fetches the current page, stops on a non-200 status or
an empty page, otherwise filters and accumulates the page and stops after
it if its raw length is below `per_page`, else continues at `page + 1`. -/
def get_repositories_go (fetchPage : Nat → PageResponse)
    (include_public include_private include_archived : Bool) :
    Nat → Nat → List Repo → List Repo × List DiscoveryEvent
  | 0, _, acc => (acc, [])
  | fuel + 1, page, acc =>
    if (fetchPage page).status ≠ 200 then
      (acc, [DiscoveryEvent.rateLimitCheck, DiscoveryEvent.pageFetch page])
    else if (fetchPage page).data = [] then
      (acc, [DiscoveryEvent.rateLimitCheck, DiscoveryEvent.pageFetch page])
    else if (fetchPage page).data.length < per_page then
      (acc ++ filterRepos include_public include_private include_archived
          (fetchPage page).data,
       [DiscoveryEvent.rateLimitCheck, DiscoveryEvent.pageFetch page])
    else
      ((get_repositories_go fetchPage include_public include_private include_archived
          fuel (page + 1)
          (acc ++ filterRepos include_public include_private include_archived
            (fetchPage page).data)).1,
       DiscoveryEvent.rateLimitCheck :: DiscoveryEvent.pageFetch page ::
         (get_repositories_go fetchPage include_public include_private include_archived
           fuel (page + 1)
           (acc ++ filterRepos include_public include_private include_archived
             (fetchPage page).data)).2)

/-- `get_repositories`: run the pagination loop from page 1 with an empty
accumulator. -/
def get_repositories (fetchPage : Nat → PageResponse)
    (include_public include_private include_archived : Bool) (fuel : Nat) :
    List Repo × List DiscoveryEvent :=
  get_repositories_go fetchPage include_public include_private include_archived
    fuel 1 []

/-- The pages fetched in an interaction sequence, in order. -/
def fetchedPages : List DiscoveryEvent → List Nat
  | [] => []
  | DiscoveryEvent.pageFetch p :: rest => p :: fetchedPages rest
  | DiscoveryEvent.rateLimitCheck :: rest => fetchedPages rest

/-! ## Rate-limit guard (`check_rate_limit`, lines 51–67) -/

/-- The response of `GET /rate_limit`, restricted to the fields the script
reads: status, `resources.core.remaining` and `resources.core.reset`. -/
structure RateLimitResponse where
  status : Nat
  remaining : Int
  reset : Int
deriving DecidableEq

/-- `check_rate_limit`, returning the number of seconds slept (its only
observable effect): nothing happens on a non-200 probe; on success a wait
of `reset - int(time.time()) + 10` seconds happens only when the remaining
count is below 10 and that quantity is positive. -/
def check_rate_limit (r : RateLimitResponse) (now : Int) : Int :=
  if r.status = 200 then
    if r.remaining < 10 then
      if r.reset - now + 10 > 0 then r.reset - now + 10 else 0
    else 0
  else 0

/-! ## Record assembly (`analyze_repositories`, lines 212–261) -/

/-- The per-repository result row (lines 248–256). -/
structure AnalysisRecord where
  repository_url : String
  repository_name : String
  has_codeowner_file : Bool
  codeowners_file_location : Option String
  primary_owner : String
deriving DecidableEq

/-- The record assembly of one loop iteration (lines 240–256): on truthy
(non-empty) content the file counts as present, the location is kept and
the owner is parsed; otherwise the owner and location are cleared; the
`primary_owner` column is `primary_owner or "No CODEOWNERS file"`. -/
def mkAnalysisRecord (repo_url repo_name : String)
    (codeowners_content codeowners_location : Option String) : AnalysisRecord :=
  match codeowners_content with
  | some content =>
    if content = "" then
      { repository_url := repo_url, repository_name := repo_name,
        has_codeowner_file := false, codeowners_file_location := none,
        primary_owner := pyOrDefault none "No CODEOWNERS file" }
    else
      { repository_url := repo_url, repository_name := repo_name,
        has_codeowner_file := true, codeowners_file_location := codeowners_location,
        primary_owner :=
          pyOrDefault (parse_primary_codeowner content) "No CODEOWNERS file" }
  | none =>
    { repository_url := repo_url, repository_name := repo_name,
      has_codeowner_file := false, codeowners_file_location := none,
      primary_owner := pyOrDefault none "No CODEOWNERS file" }

/-- The loop of `analyze_repositories` (lines 227–259) with its 1-based
counter `i`, instrumented with the indices at which `check_rate_limit` is
invoked (`if i % 50 == 0`, line 234).  `locate` models
`get_codeowners_content` for a repository name.  Returns the result rows
in input order together with those indices. -/
def analyze_repositories_go (locate : String → Option String × Option String) :
    List Repo → Nat → List AnalysisRecord × List Nat
  | [], _ => ([], [])
  | repo :: rest, i =>
    (mkAnalysisRecord repo.html_url repo.name (locate repo.name).1
        (locate repo.name).2 ::
      (analyze_repositories_go locate rest (i + 1)).1,
     (if i % 50 = 0 then [i] else []) ++ (analyze_repositories_go locate rest (i + 1)).2)

/-- `analyze_repositories`: run the loop with `enumerate(repositories, 1)`. -/
def analyze_repositories (locate : String → Option String × Option String)
    (repositories : List Repo) : List AnalysisRecord × List Nat :=
  analyze_repositories_go locate repositories 1

/-! ## Helper lemmas: the parser loop -/

theorem parseLines_cons (line : String) (rest : List String) :
    parseLines (line :: rest) =
      match lineDecision line with
      | some r => some r
      | none => parseLines rest := by
  by_cases hskip : lineSkipped line
  · conv_lhs => rw [parseLines]
    unfold lineDecision
    simp [hskip]
  · conv_lhs => rw [parseLines]
    unfold lineDecision
    rcases hp : pySplitWs (pyStrip line) with _ | ⟨t, _ | ⟨o, tl⟩⟩ <;>
      by_cases hat : pyStartsWith (pyStrip line) '@' = true <;>
        simp [hskip, hp, hat]

theorem parseLines_cons_skipped (line : String) (rest : List String)
    (h : lineSkipped line) :
    parseLines (line :: rest) = parseLines rest := by
  rw [parseLines_cons]
  unfold lineDecision
  simp [h]

theorem parseLines_cons_decision (line : String) (rest : List String)
    (r : String) (h : lineDecision line = some r) :
    parseLines (line :: rest) = some r := by
  rw [parseLines_cons, h]

theorem parseLines_append_skipped (pre : List String) (ls : List String)
    (h : ∀ x ∈ pre, lineSkipped x) :
    parseLines (pre ++ ls) = parseLines ls := by
  induction pre with
  | nil => rfl
  | cons a tl ih =>
    rw [List.cons_append,
      parseLines_cons_skipped a (tl ++ ls) (h a (List.mem_cons_self a tl)),
      ih (fun x hx => h x (List.mem_cons_of_mem a hx))]

theorem parseLines_all_skipped (ls : List String)
    (h : ∀ x ∈ ls, lineSkipped x) :
    parseLines ls = none := by
  have := parseLines_append_skipped ls [] h
  simpa using this

theorem parseLines_append_no_decision (pre : List String) (ls : List String)
    (h : ∀ x ∈ pre, lineDecision x = none) :
    parseLines (pre ++ ls) = parseLines ls := by
  induction pre with
  | nil => rfl
  | cons a tl ih =>
    rw [List.cons_append, parseLines_cons, h a (List.mem_cons_self a tl),
      ih (fun x hx => h x (List.mem_cons_of_mem a hx))]

/-! ## Helper lemmas: the locator loop -/

theorem locateRun_skip (fetch : String → ContentResponse)
    (decode : String → String) (loc : String) (rest : List String)
    (h : probeOk (fetch loc) = false) :
    locateRun fetch decode (loc :: rest) =
      ((locateRun fetch decode rest).1, loc :: (locateRun fetch decode rest).2) := by
  unfold probeOk at h
  conv_lhs => rw [locateRun]
  by_cases hs : (fetch loc).status = 200
  · rcases hc : (fetch loc).content with _ | c
    · simp [hs, hc]
    · simp only [hs, hc, beq_iff_eq, if_true] at h ⊢
      have hce : c = "" := by
        simpa [bne] using h
      simp [hce]
  · simp [hs]

theorem locateRun_found (fetch : String → ContentResponse)
    (decode : String → String) (loc : String) (rest : List String)
    (c : String) (hs : (fetch loc).status = 200)
    (hc : (fetch loc).content = some c) (hne : c ≠ "") :
    locateRun fetch decode (loc :: rest) = ((some (decode c), some loc), [loc]) := by
  conv_lhs => rw [locateRun]
  simp [hs, hc, hne]

theorem locateRun_append_skip (fetch : String → ContentResponse)
    (decode : String → String) (pre : List String) (rest : List String)
    (h : ∀ l ∈ pre, probeOk (fetch l) = false) :
    locateRun fetch decode (pre ++ rest) =
      ((locateRun fetch decode rest).1, pre ++ (locateRun fetch decode rest).2) := by
  induction pre with
  | nil => simp
  | cons a tl ih =>
    rw [List.cons_append, locateRun_skip fetch decode a (tl ++ rest)
        (h a (List.mem_cons_self a tl)),
      ih (fun l hl => h l (List.mem_cons_of_mem a hl))]
    simp

theorem locateRun_some_iff (fetch : String → ContentResponse)
    (decode : String → String) (ls : List String) :
    (locateRun fetch decode ls).1.1.isSome ↔ (locateRun fetch decode ls).1.2.isSome := by
  induction ls with
  | nil => simp [locateRun]
  | cons a tl ih =>
    by_cases hok : probeOk (fetch a) = true
    · unfold probeOk at hok
      rcases hc : (fetch a).content with _ | c
      · simp [hc] at hok
      · simp only [hc, beq_iff_eq, bne] at hok
        have hs : (fetch a).status = 200 := by
          rcases Bool.and_eq_true_iff.mp hok with ⟨h1, _⟩
          exact of_decide_eq_true h1
        have hne : c ≠ "" := by
          rcases Bool.and_eq_true_iff.mp hok with ⟨_, h2⟩
          simpa using h2
        rw [locateRun_found fetch decode a tl c hs hc hne]
        simp
    · rw [locateRun_skip fetch decode a tl (by simpa using hok)]
      exact ih

/-! ## Helper lemmas: discovery -/

theorem filterRepos_eq_filter
    (include_public include_private include_archived : Bool) (data : List Repo) :
    filterRepos include_public include_private include_archived data =
      data.filter (fun r =>
        (!r.archived || include_archived) && (!r.«private» || include_private) &&
          (r.«private» || include_public)) := by
  induction data with
  | nil => rfl
  | cons a tl ih =>
    conv_lhs => rw [filterRepos]
    rw [List.filter_cons]
    cases ha : a.archived <;> cases hp : a.«private» <;>
      cases include_public <;> cases include_private <;> cases include_archived <;>
        simp_all

theorem get_repositories_go_error (fetchPage : Nat → PageResponse)
    (include_public include_private include_archived : Bool)
    (fuel page : Nat) (acc : List Repo)
    (h : (fetchPage page).status ≠ 200) :
    get_repositories_go fetchPage include_public include_private include_archived
        (fuel + 1) page acc =
      (acc, [DiscoveryEvent.rateLimitCheck, DiscoveryEvent.pageFetch page]) := by
  conv_lhs => rw [get_repositories_go]
  simp [h]

theorem get_repositories_go_empty (fetchPage : Nat → PageResponse)
    (include_public include_private include_archived : Bool)
    (fuel page : Nat) (acc : List Repo)
    (h200 : (fetchPage page).status = 200) (hemp : (fetchPage page).data = []) :
    get_repositories_go fetchPage include_public include_private include_archived
        (fuel + 1) page acc =
      (acc, [DiscoveryEvent.rateLimitCheck, DiscoveryEvent.pageFetch page]) := by
  conv_lhs => rw [get_repositories_go]
  simp [h200, hemp]

theorem get_repositories_go_short (fetchPage : Nat → PageResponse)
    (include_public include_private include_archived : Bool)
    (fuel page : Nat) (acc : List Repo)
    (h200 : (fetchPage page).status = 200) (hne : (fetchPage page).data ≠ [])
    (hlen : (fetchPage page).data.length < per_page) :
    get_repositories_go fetchPage include_public include_private include_archived
        (fuel + 1) page acc =
      (acc ++ filterRepos include_public include_private include_archived
          (fetchPage page).data,
       [DiscoveryEvent.rateLimitCheck, DiscoveryEvent.pageFetch page]) := by
  conv_lhs => rw [get_repositories_go]
  simp [h200, hne, hlen]

theorem get_repositories_go_full (fetchPage : Nat → PageResponse)
    (include_public include_private include_archived : Bool)
    (fuel page : Nat) (acc : List Repo)
    (h200 : (fetchPage page).status = 200) (hne : (fetchPage page).data ≠ [])
    (hlen : ¬ (fetchPage page).data.length < per_page) :
    get_repositories_go fetchPage include_public include_private include_archived
        (fuel + 1) page acc =
      ((get_repositories_go fetchPage include_public include_private include_archived
          fuel (page + 1)
          (acc ++ filterRepos include_public include_private include_archived
            (fetchPage page).data)).1,
       DiscoveryEvent.rateLimitCheck :: DiscoveryEvent.pageFetch page ::
         (get_repositories_go fetchPage include_public include_private include_archived
           fuel (page + 1)
           (acc ++ filterRepos include_public include_private include_archived
             (fetchPage page).data)).2) := by
  conv_lhs => rw [get_repositories_go]
  simp [h200, hne, hlen]

theorem get_repositories_go_trace (fetchPage : Nat → PageResponse)
    (include_public include_private include_archived : Bool) :
    ∀ (fuel page : Nat) (acc : List Repo),
      (get_repositories_go fetchPage include_public include_private include_archived
          fuel page acc).2 =
        ((fetchedPages ((get_repositories_go fetchPage include_public include_private
            include_archived fuel page acc).2)).map
          (fun p => [DiscoveryEvent.rateLimitCheck, DiscoveryEvent.pageFetch p])).flatten := by
  intro fuel
  induction fuel with
  | zero => intro page acc; rfl
  | succ n ih =>
    intro page acc
    by_cases h1 : (fetchPage page).status ≠ 200
    · rw [get_repositories_go_error fetchPage include_public include_private
        include_archived n page acc h1]
      rfl
    · push_neg at h1
      by_cases h2 : (fetchPage page).data = []
      · rw [get_repositories_go_empty fetchPage include_public include_private
          include_archived n page acc h1 h2]
        rfl
      · by_cases h3 : (fetchPage page).data.length < per_page
        · rw [get_repositories_go_short fetchPage include_public include_private
            include_archived n page acc h1 h2 h3]
          rfl
        · have ihx := ih (page + 1)
            (acc ++ filterRepos include_public include_private include_archived
              (fetchPage page).data)
          rw [get_repositories_go_full fetchPage include_public include_private
            include_archived n page acc h1 h2 h3]
          simp only [fetchedPages, List.map_cons, List.flatten_cons]
          rw [← ihx]
          rfl

/-! ## Helper lemmas: the analysis loop -/

theorem parse_primary_codeowner_of_all_skipped (content : String)
    (h : ∀ x ∈ pySplitNl (pyStrip content), lineSkipped x) :
    parse_primary_codeowner content = none := by
  unfold parse_primary_codeowner
  by_cases hc : content = ""
  · simp [hc]
  · rw [if_neg hc]
    exact parseLines_all_skipped _ h

theorem mkAnalysisRecord_no_file (repo_url repo_name : String)
    (cc cl : Option String)
    (h : (mkAnalysisRecord repo_url repo_name cc cl).has_codeowner_file = false) :
    (mkAnalysisRecord repo_url repo_name cc cl).codeowners_file_location = none ∧
      (mkAnalysisRecord repo_url repo_name cc cl).primary_owner =
        "No CODEOWNERS file" := by
  unfold mkAnalysisRecord at h ⊢
  rcases cc with _ | content
  · exact ⟨rfl, rfl⟩
  · by_cases hc : content = ""
    · simp [hc, pyOrDefault]
    · simp [hc] at h

theorem mkAnalysisRecord_absent_owner (repo_url repo_name : String)
    (cc cl : Option String)
    (h : cc = none ∨ ∃ s, cc = some s ∧ parse_primary_codeowner s = none) :
    (mkAnalysisRecord repo_url repo_name cc cl).primary_owner =
      "No CODEOWNERS file" := by
  unfold mkAnalysisRecord
  rcases h with h | ⟨s, hs, hp⟩
  · subst h; rfl
  · subst hs
    by_cases hc : s = ""
    · simp [hc, pyOrDefault]
    · simp [hc, hp, pyOrDefault]

theorem analyze_repositories_go_mem
    (locate : String → Option String × Option String) :
    ∀ (repos : List Repo) (i : Nat) (rec : AnalysisRecord),
      rec ∈ (analyze_repositories_go locate repos i).1 →
      ∃ repo : Repo,
        rec = mkAnalysisRecord repo.html_url repo.name (locate repo.name).1
          (locate repo.name).2 := by
  intro repos
  induction repos with
  | nil =>
    intro i rec h
    simp [analyze_repositories_go] at h
  | cons a tl ih =>
    intro i rec h
    rw [analyze_repositories_go] at h
    rcases List.mem_cons.mp h with h | h
    · exact ⟨a, h⟩
    · exact ih (i + 1) rec h

theorem analyze_repositories_go_guards
    (locate : String → Option String × Option String) :
    ∀ (repos : List Repo) (i : Nat),
      (analyze_repositories_go locate repos i).2 =
        ((List.range repos.length).map (fun j => j + i)).filter
          (fun j => j % 50 == 0) := by
  intro repos
  induction repos with
  | nil => intro i; rfl
  | cons a tl ih =>
    intro i
    rw [analyze_repositories_go]
    have hmap : (fun j => j + 1 + i) = (fun j : Nat => j + (i + 1)) := by
      funext j; omega
    by_cases hi : i % 50 = 0 <;>
      simp [ih (i + 1), List.range_succ_eq_map, List.filter_cons, hi,
        List.map_map, Function.comp_def, hmap]

theorem range_filter_mod50 : ∀ n : Nat,
    ((List.range n).map (fun j => j + 1)).filter (fun j => j % 50 == 0) =
      (List.range (n / 50)).map (fun k => 50 * (k + 1)) := by
  intro n
  induction n with
  | zero => rfl
  | succ m ih =>
    rw [List.range_succ, List.map_append, List.filter_append, ih]
    by_cases h : (m + 1) % 50 = 0
    · have hdiv : (m + 1) / 50 = m / 50 + 1 := by omega
      have hval : m + 1 = 50 * (m / 50 + 1) := by omega
      rw [hdiv, List.range_succ, List.map_append]
      simp [h, ← hval]
    · have hdiv : (m + 1) / 50 = m / 50 := by omega
      rw [hdiv]
      simp [h]

/-! ## Claims C1, C2, C9 -/

/-- Claim C1: `parse_primary_codeowner` scans the trimmed content line by
line, skips lines that are empty after trimming or whose first non-space
character is `#`, and returns at the first qualifying line: a single
token starting with `@` yields that token without the `@`; a line of two
or more tokens yields the second token with a leading `@` stripped.
(`lineDecision` is exactly that per-line case split.) -/
theorem parse_primary_codeowner_first_qualifying
    (content : String) (pre post : List String) (line r : String)
    (hc : content ≠ "")
    (hsplit : pySplitNl (pyStrip content) = pre ++ line :: post)
    (hpre : ∀ x ∈ pre, lineDecision x = none)
    (hline : lineDecision line = some r) :
    parse_primary_codeowner content = some r := by
  unfold parse_primary_codeowner
  rw [if_neg hc, hsplit, parseLines_append_no_decision pre (line :: post) hpre,
    parseLines_cons_decision line post r hline]

/-- Witness for C1: content whose first qualifying line is `"* @alice"`
parses to `"alice"`. -/
theorem parse_primary_codeowner_first_qualifying_witness :
    parse_primary_codeowner "# note\n* @alice" = some "alice" :=
  parse_primary_codeowner_first_qualifying "# note\n* @alice" ["# note"] []
    "* @alice" "alice" (by decide) (by decide) (by decide) (by decide)

/-- Claim C2: the locator probes the three candidate paths in the fixed
priority order and returns, at the first candidate answered with a 200
response carrying a non-empty `content` payload, the decoded content and
that path, probing no later candidate; any other response lets the search
continue (and if every candidate fails, all three are probed in order and
nothing is returned). -/
theorem get_codeowners_content_first_success :
    (∀ (fetch : String → ContentResponse) (decode : String → String)
        (pre post : List String) (loc c : String),
       codeownersLocations = pre ++ loc :: post →
       (∀ l ∈ pre, probeOk (fetch l) = false) →
       (fetch loc).status = 200 →
       (fetch loc).content = some c → c ≠ "" →
       get_codeowners_content fetch decode = (some (decode c), some loc) ∧
         codeownersProbes fetch decode = pre ++ [loc]) ∧
    (∀ (fetch : String → ContentResponse) (decode : String → String),
       (∀ l ∈ codeownersLocations, probeOk (fetch l) = false) →
       get_codeowners_content fetch decode = (none, none) ∧
         codeownersProbes fetch decode = codeownersLocations) := by
  constructor
  · intro fetch decode pre post loc c horder hpre hs hc hne
    unfold get_codeowners_content codeownersProbes
    rw [horder, locateRun_append_skip fetch decode pre (loc :: post) hpre,
      locateRun_found fetch decode loc post c hs hc hne]
    exact ⟨rfl, rfl⟩
  · intro fetch decode hall
    unfold get_codeowners_content codeownersProbes
    have h := locateRun_append_skip fetch decode codeownersLocations [] hall
    rw [List.append_nil] at h
    rw [h]
    simp [locateRun]

/-- Witness for C2: with `.github/CODEOWNERS` answering 404 and the root
`CODEOWNERS` answering 200, the locator returns the decoded root content
and probes exactly the first two candidates. -/
theorem get_codeowners_content_first_success_witness :
    get_codeowners_content
        (fun l => if l = "CODEOWNERS" then ⟨200, some "Kg=="⟩ else ⟨404, none⟩)
        (fun _ => "* @alice") = (some "* @alice", some "CODEOWNERS") ∧
      codeownersProbes
        (fun l => if l = "CODEOWNERS" then ⟨200, some "Kg=="⟩ else ⟨404, none⟩)
        (fun _ => "* @alice") = [".github/CODEOWNERS", "CODEOWNERS"] :=
  get_codeowners_content_first_success.1
    (fun l => if l = "CODEOWNERS" then ⟨200, some "Kg=="⟩ else ⟨404, none⟩)
    (fun _ => "* @alice") [".github/CODEOWNERS"] ["docs/CODEOWNERS"]
    "CODEOWNERS" "Kg==" (by decide) (by decide) (by decide) (by decide) (by decide)

/-- Claim C9: a 200 response whose `content` field is absent or empty is
skipped exactly like a non-200 response and the search continues; hence
the returned pair has its content present if and only if its location is
present. -/
theorem codeowners_empty_payload_skipped :
    (∀ (fetch : String → ContentResponse) (decode : String → String)
        (loc : String) (rest : List String),
       (fetch loc).status = 200 →
       ((fetch loc).content = none ∨ (fetch loc).content = some "") →
       locateRun fetch decode (loc :: rest) =
         ((locateRun fetch decode rest).1, loc :: (locateRun fetch decode rest).2)) ∧
    (∀ (fetch : String → ContentResponse) (decode : String → String),
       (get_codeowners_content fetch decode).1.isSome ↔
         (get_codeowners_content fetch decode).2.isSome) := by
  constructor
  · intro fetch decode loc rest _ hc
    apply locateRun_skip
    unfold probeOk
    rcases hc with hc | hc <;> simp [hc]
  · intro fetch decode
    exact locateRun_some_iff fetch decode codeownersLocations

/-- Witness for C9: a lone candidate answered 200 with an empty payload is
skipped, leaving nothing found. -/
theorem codeowners_empty_payload_skipped_witness :
    locateRun (fun _ => (⟨200, some ""⟩ : ContentResponse)) (fun s => s)
        ["docs/CODEOWNERS"] = ((none, none), ["docs/CODEOWNERS"]) := by
  have h := codeowners_empty_payload_skipped.1
    (fun _ => (⟨200, some ""⟩ : ContentResponse)) (fun s => s)
    "docs/CODEOWNERS" [] (by decide) (Or.inr (by decide))
  rw [h]
  rfl

/-! ## Claims C3, C4, C6, C8 -/

/-- Claim C3: an entry of a listing page is kept iff all of
archived ⇒ includeArchived, private ⇒ includePrivate and
¬private ⇒ includePublic hold, in listing order (the loop is exactly a
`List.filter`); in particular with `include_private = false` every kept
entry is public. -/
theorem get_repositories_filtering :
    (∀ (include_public include_private include_archived : Bool) (data : List Repo),
       filterRepos include_public include_private include_archived data =
         data.filter (fun r =>
           (!r.archived || include_archived) && (!r.«private» || include_private) &&
             (r.«private» || include_public))) ∧
    (∀ (include_public include_archived : Bool) (data : List Repo) (r : Repo),
       r ∈ filterRepos include_public false include_archived data →
         r.«private» = false) := by
  refine ⟨filterRepos_eq_filter, ?_⟩
  intro ipub iarch data r hr
  rw [filterRepos_eq_filter ipub false iarch data] at hr
  have hp := (List.mem_filter.mp hr).2
  rcases Bool.and_eq_true_iff.mp hp with ⟨h1, _⟩
  rcases Bool.and_eq_true_iff.mp h1 with ⟨_, h2⟩
  simpa using h2

/-- Witness for C3: a public entry kept with `include_private = false` is
indeed not private. -/
theorem get_repositories_filtering_witness :
    (⟨"repo-a", "https://example.test/repo-a", false, false⟩ : Repo).«private» =
      false :=
  get_repositories_filtering.2 true true
    [⟨"repo-a", "https://example.test/repo-a", false, false⟩]
    ⟨"repo-a", "https://example.test/repo-a", false, false⟩ (by decide)

/-- Claim C4: pagination uses the fixed page size 100 and, at any page of
the ascending counter: a fetched empty page terminates the loop
immediately; a non-empty page shorter than the page size terminates the
loop after that page is filtered and accumulated; a full page is filtered,
accumulated and the loop continues at `page + 1`.  Each equation holds for
every fuel bound, so the result is reached irrespective of any further
page responses. -/
theorem get_repositories_pagination
    (fetchPage : Nat → PageResponse)
    (include_public include_private include_archived : Bool)
    (fuel page : Nat) (acc : List Repo) :
    per_page = 100 ∧
    ((fetchPage page).status = 200 → (fetchPage page).data = [] →
      get_repositories_go fetchPage include_public include_private include_archived
          (fuel + 1) page acc =
        (acc, [DiscoveryEvent.rateLimitCheck, DiscoveryEvent.pageFetch page])) ∧
    ((fetchPage page).status = 200 → (fetchPage page).data ≠ [] →
      (fetchPage page).data.length < per_page →
      get_repositories_go fetchPage include_public include_private include_archived
          (fuel + 1) page acc =
        (acc ++ filterRepos include_public include_private include_archived
            (fetchPage page).data,
         [DiscoveryEvent.rateLimitCheck, DiscoveryEvent.pageFetch page])) ∧
    ((fetchPage page).status = 200 → (fetchPage page).data ≠ [] →
      ¬ (fetchPage page).data.length < per_page →
      get_repositories_go fetchPage include_public include_private include_archived
          (fuel + 1) page acc =
        ((get_repositories_go fetchPage include_public include_private
            include_archived fuel (page + 1)
            (acc ++ filterRepos include_public include_private include_archived
              (fetchPage page).data)).1,
         DiscoveryEvent.rateLimitCheck :: DiscoveryEvent.pageFetch page ::
           (get_repositories_go fetchPage include_public include_private
             include_archived fuel (page + 1)
             (acc ++ filterRepos include_public include_private include_archived
               (fetchPage page).data)).2)) :=
  ⟨rfl,
   get_repositories_go_empty fetchPage include_public include_private
     include_archived fuel page acc,
   get_repositories_go_short fetchPage include_public include_private
     include_archived fuel page acc,
   get_repositories_go_full fetchPage include_public include_private
     include_archived fuel page acc⟩

/-- Witness for C4: a single non-empty page of length 1 < 100 is filtered,
accumulated and pagination stops. -/
theorem get_repositories_pagination_witness :
    get_repositories_go
        (fun _ => ⟨200, [⟨"repo-a", "https://example.test/repo-a", false, false⟩]⟩)
        true true true 1 1 [] =
      ([⟨"repo-a", "https://example.test/repo-a", false, false⟩],
       [DiscoveryEvent.rateLimitCheck, DiscoveryEvent.pageFetch 1]) := by
  have h := (get_repositories_pagination
    (fun _ => ⟨200, [⟨"repo-a", "https://example.test/repo-a", false, false⟩]⟩)
    true true true 0 1 []).2.2.1 rfl (by decide) (by decide)
  rw [h]
  rfl

/-- Claim C6: a non-200 status on a listing page stops pagination at once —
no retry of that page, no further fetches — and returns exactly the
repositories accumulated so far. -/
theorem get_repositories_stops_on_error
    (fetchPage : Nat → PageResponse)
    (include_public include_private include_archived : Bool)
    (fuel page : Nat) (acc : List Repo)
    (h : (fetchPage page).status ≠ 200) :
    get_repositories_go fetchPage include_public include_private include_archived
        (fuel + 1) page acc =
      (acc, [DiscoveryEvent.rateLimitCheck, DiscoveryEvent.pageFetch page]) :=
  get_repositories_go_error fetchPage include_public include_private
    include_archived fuel page acc h

/-- Witness for C6: a 403 on the first page returns the (empty) accumulator
with a single page fetch in the trace. -/
theorem get_repositories_stops_on_error_witness :
    get_repositories_go (fun _ => ⟨403, []⟩) true true true 5 1 [] =
      ([], [DiscoveryEvent.rateLimitCheck, DiscoveryEvent.pageFetch 1]) :=
  get_repositories_stops_on_error (fun _ => ⟨403, []⟩) true true true 4 1 []
    (by decide)

/-- Claim C8: in the discovery loop the rate-limit guard runs exactly once
immediately before each page fetch (the interaction trace is a
concatenation of guard-then-fetch blocks, one per fetched page); in the
per-repository loop the guard runs exactly at repositories 50, 100, 150,
…, i.e. `n / 50` times for `n` repositories. -/
theorem check_rate_limit_cadence :
    (∀ (fetchPage : Nat → PageResponse)
        (include_public include_private include_archived : Bool)
        (fuel page : Nat) (acc : List Repo),
       (get_repositories_go fetchPage include_public include_private
           include_archived fuel page acc).2 =
         ((fetchedPages ((get_repositories_go fetchPage include_public
             include_private include_archived fuel page acc).2)).map
           (fun p => [DiscoveryEvent.rateLimitCheck, DiscoveryEvent.pageFetch p])).flatten) ∧
    (∀ (locate : String → Option String × Option String) (repos : List Repo),
       (analyze_repositories locate repos).2 =
         (List.range (repos.length / 50)).map (fun k => 50 * (k + 1))) := by
  constructor
  · intro fetchPage a b c fuel page acc
    exact get_repositories_go_trace fetchPage a b c fuel page acc
  · intro locate repos
    unfold analyze_repositories
    rw [analyze_repositories_go_guards locate repos 1]
    exact range_filter_mod50 repos.length

/-! ## Claims C5, C7, C10 -/

/-- Claim C5: every record produced by `analyze_repositories` with
`has_codeowner_file = false` has no location and the owner column
`"No CODEOWNERS file"`; the owner column is `"No CODEOWNERS file"`
whenever parsing yields `none` (file missing, or present without a
qualifying rule); in particular content consisting only of comments and
blank lines yields that default. -/
theorem analysis_record_invariant :
    (∀ (locate : String → Option String × Option String) (repos : List Repo)
        (rec : AnalysisRecord),
       rec ∈ (analyze_repositories locate repos).1 →
       rec.has_codeowner_file = false →
       rec.codeowners_file_location = none ∧
         rec.primary_owner = "No CODEOWNERS file") ∧
    (∀ (repo_url repo_name : String) (cc cl : Option String),
       (cc = none ∨ ∃ s, cc = some s ∧ parse_primary_codeowner s = none) →
       (mkAnalysisRecord repo_url repo_name cc cl).primary_owner =
         "No CODEOWNERS file") ∧
    (∀ (repo_url repo_name content : String) (cl : Option String),
       (∀ x ∈ pySplitNl (pyStrip content), lineSkipped x) →
       (mkAnalysisRecord repo_url repo_name (some content) cl).primary_owner =
         "No CODEOWNERS file") := by
  refine ⟨?_, mkAnalysisRecord_absent_owner, ?_⟩
  · intro locate repos rec hmem hfalse
    obtain ⟨repo, hrepo⟩ := analyze_repositories_go_mem locate repos 1 rec hmem
    subst hrepo
    exact mkAnalysisRecord_no_file _ _ _ _ hfalse
  · intro repo_url repo_name content cl hsk
    exact mkAnalysisRecord_absent_owner repo_url repo_name (some content) cl
      (Or.inr ⟨content, rfl, parse_primary_codeowner_of_all_skipped content hsk⟩)

/-- Witness for C5: a file of comments and blank lines only gives a record
whose owner column is the default. -/
theorem analysis_record_invariant_witness :
    (mkAnalysisRecord "https://example.test/repo-a" "repo-a"
        (some "# comment\n\n# more") (some ".github/CODEOWNERS")).primary_owner =
      "No CODEOWNERS file" :=
  analysis_record_invariant.2.2 "https://example.test/repo-a" "repo-a"
    "# comment\n\n# more" (some ".github/CODEOWNERS") (by decide)

/-- Claim C7: the rate-limit guard is a total function of the probe
response: a non-200 probe waits nothing; at least 10 remaining requests
wait nothing; below 10 remaining it waits exactly
`reset − now + 10` seconds, and only when that quantity is positive. -/
theorem check_rate_limit_wait (r : RateLimitResponse) (now : Int) :
    (r.status ≠ 200 → check_rate_limit r now = 0) ∧
    (10 ≤ r.remaining → check_rate_limit r now = 0) ∧
    (r.status = 200 → r.remaining < 10 → 0 < r.reset - now + 10 →
      check_rate_limit r now = r.reset - now + 10) ∧
    (r.status = 200 → r.remaining < 10 → r.reset - now + 10 ≤ 0 →
      check_rate_limit r now = 0) := by
  unfold check_rate_limit
  refine ⟨fun h => ?_, fun h => ?_, fun h1 h2 h3 => ?_, fun h1 h2 h3 => ?_⟩
  · rw [if_neg h]
  · have hlt : ¬ r.remaining < 10 := not_lt.mpr h
    by_cases hs : r.status = 200 <;> simp [hs, hlt]
  · simp [h1, h2, h3]
  · have hn : ¬ r.reset - now + 10 > 0 := not_lt.mpr h3
    simp [h1, h2, hn]

/-- Witness for C7: with 5 requests remaining, reset epoch 100 and now 0,
the guard waits 100 − 0 + 10 = 110 seconds. -/
theorem check_rate_limit_wait_witness :
    check_rate_limit (⟨200, 5, 100⟩ : RateLimitResponse) 0 = 110 := by
  have h := (check_rate_limit_wait (⟨200, 5, 100⟩ : RateLimitResponse) 0).2.2.1
    rfl (by decide) (by decide)
  rw [h]
  decide

/-- Claim C10: a qualifying line consisting of the single token `"@"`
parses to the empty string (not `none`); the `or`-coercion sends both
`none` and `""` to the default; hence a record can have
`has_codeowner_file = true` together with
`primary_owner = "No CODEOWNERS file"` although the file had a qualifying
first line. -/
theorem empty_owner_coerced_to_default :
    parse_primary_codeowner "@" = some "" ∧
    (∀ d : String, pyOrDefault none d = d ∧ pyOrDefault (some "") d = d) ∧
    (∀ (repo_url repo_name : String) (cl : Option String),
       (mkAnalysisRecord repo_url repo_name (some "@") cl).has_codeowner_file =
           true ∧
         (mkAnalysisRecord repo_url repo_name (some "@") cl).primary_owner =
           "No CODEOWNERS file") := by
  refine ⟨by decide, fun d => ⟨rfl, rfl⟩, fun repo_url repo_name cl => ⟨?_, ?_⟩⟩
  · unfold mkAnalysisRecord
    simp
  · unfold mkAnalysisRecord
    simp only [String.reduceEq, if_false]
    decide

end GhAnalytics
